import Mathlib

/-!
Verification of the conversation-embedding retrieval engine.

The development shallowly embeds:
* the SQL function match_conversation_messages from
  supabase/migrations/20230407000000_conversation_embeddings.sql
  (filter / order / limit semantics of the similarity ranking);
* the search handler in pages/api/search-conversation-embeddings.ts
  (parameter resolution, post-rank user filter, context window slice,
  enrichment loop);
* the ingestion handler (store-conversation-embedding endpoint):
  conversation upsert and the per-message embed-and-insert loop.

Vector distance itself is delegated by the code to pgvector; here it is a
parameter dist assigning to each stored embedding its distance to the
fixed query vector, so that similarity is 1 - dist e, exactly the SQL
expression 1 - (embedding <=> query_embedding).
-/

namespace ConvEmbed

/-- A row of the conversation_message table, as declared by the migration.
The embedding column is nullable (vector(1536) with no NOT NULL). -/
structure MsgRow where
  id : Nat
  conversation_id : Nat
  role : String
  content : String
  created_at : Int
  embedding : Option (List ℚ)
deriving DecidableEq, Repr

/-- The WHERE clause of match_conversation_messages: the embedding is not
null, the similarity 1 - (embedding <=> query) is strictly greater than
match_threshold, and the optional conversation filter matches. -/
def qualifies (dist : List ℚ → ℚ) (t : ℚ) (fc : Option Nat) (r : MsgRow) : Bool :=
  match r.embedding with
  | none => false
  | some e =>
    decide (1 - dist e > t) &&
      (match fc with
       | none => true
       | some c => decide (r.conversation_id = c))

/-- The computed similarity column, 1 - (embedding <=> query_embedding). -/
def msgSimilarity (dist : List ℚ → ℚ) (r : MsgRow) : ℚ :=
  1 - dist (r.embedding.getD [])

/-- ORDER BY similarity DESC: adjacent pairs are in non-increasing
similarity order. -/
def simSortedDesc (dist : List ℚ → ℚ) (l : List MsgRow) : Prop :=
  l.Pairwise (fun a b => msgSimilarity dist b ≤ msgSimilarity dist a)

/-- Result relation of match_conversation_messages: the result is the
first match_count rows of some similarity-descending ordering of the
qualifying rows.  SQL fixes no order among rows of equal similarity
(ORDER BY names similarity only), hence a relation rather than a
function. -/
def IsMatchResult (table : List MsgRow) (dist : List ℚ → ℚ) (t : ℚ) (k : Nat)
    (fc : Option Nat) (res : List MsgRow) : Prop :=
  ∃ s : List MsgRow,
    s.Perm (table.filter (qualifies dist t fc)) ∧ simSortedDesc dist s ∧ res = s.take k

/-- The tie rule claimed by the specification: among returned rows of
equal similarity, earlier creation time comes first. -/
def tieBreakAsc (dist : List ℚ → ℚ) (l : List MsgRow) : Prop :=
  l.Pairwise (fun a b => msgSimilarity dist a = msgSimilarity dist b → a.created_at ≤ b.created_at)

/-- Concrete witness row for the ranking theorems: similarity 4/5 against
threshold 7/10. -/
def wRow : MsgRow := ⟨1, 1, "user", "hello", 0, some [0]⟩

def wTbl : List MsgRow := [wRow]

def distW : List ℚ → ℚ := fun _ => 1/5

/-- Two rows sharing one embedding (hence equal similarity to any query)
whose storage order is the reverse of their creation order. -/
def rowLate : MsgRow := ⟨1, 1, "user", "alpha", 10, some [1]⟩

def rowEarly : MsgRow := ⟨2, 1, "assistant", "beta", 5, some [1]⟩

def tieTbl : List MsgRow := [rowLate, rowEarly]

def distTie : List ℚ → ℚ := fun _ => 1/4

/-- A row of the conversation_history table. -/
structure ConvHistRow where
  id : Nat
  user_id : Option String
  conversation_id : String
  created_at : Int
  title : Option String
  summary : Option String
deriving DecidableEq, Repr

/-- The ids of the conversations belonging to a user: the select on
conversation_history with eq user_id, mapped to the id column. -/
def userConversationIds (convs : List ConvHistRow) (uid : String) : List Nat :=
  (convs.filter (fun c => decide (c.user_id = some uid))).map (fun c => c.id)

/-- The post-rank filter of the search handler: keep the matches whose
conversation_id is among the user conversation ids. -/
def userFilter (ids : List Nat) (ms : List MsgRow) : List MsgRow :=
  ms.filter (fun m => ids.contains m.conversation_id)

/-- The handler pipeline when userId is present: first the ranking query
(unscoped, LIMIT k applied there), then the user filter in application
code. -/
def IsUserSearchResult (msgTable : List MsgRow) (convTable : List ConvHistRow)
    (dist : List ℚ → ℚ) (t : ℚ) (k : Nat) (uid : String) (res : List MsgRow) : Prop :=
  ∃ mr, IsMatchResult msgTable dist t k none mr ∧
    res = userFilter (userConversationIds convTable uid) mr

def convU1 : ConvHistRow := ⟨1, some "u", "conv-1", 0, none, none⟩

def convU2 : ConvHistRow := ⟨2, some "v", "conv-2", 0, none, none⟩

def cTbl : List ConvHistRow := [convU1, convU2]

def msgA : MsgRow := ⟨10, 2, "user", "acct help", 0, some [1]⟩

def msgB : MsgRow := ⟨11, 1, "user", "login issue", 1, some [2]⟩

def uTbl : List MsgRow := [msgA, msgB]

def distU : List ℚ → ℚ := fun v => if v = [1] then 1/10 else 1/5

/-- The body of a search request; absent fields are none. -/
structure SearchRequest where
  query : Option String
  userId : Option String
  conversationId : Option String
  matchCount : Option Int
  matchThreshold : Option ℚ
  includeContext : Option Bool
deriving DecidableEq, Repr

structure ResolvedSearch where
  query : String
  userId : Option String
  conversationId : Option String
  matchCount : Int
  matchThreshold : ℚ
  includeContext : Bool
deriving DecidableEq, Repr

inductive UserErrorModel where
  | missingQuery
deriving DecidableEq, Repr

/-- Parameter handling of the search handler: destructuring with
defaults matchCount 5, matchThreshold 0.7, includeContext false, then
the single check that query is present and non-empty.  No other
validation occurs before the ranking query is issued. -/
def resolveSearchRequest (r : SearchRequest) : Except UserErrorModel ResolvedSearch :=
  let q := r.query.getD ""
  if q = "" then .error .missingQuery
  else
    .ok ⟨q, r.userId, r.conversationId, r.matchCount.getD 5,
      r.matchThreshold.getD (7/10), r.includeContext.getD false⟩

def req0 : SearchRequest := ⟨some "q", none, none, some (-1), some (3/2), none⟩

/-- A row of the per-conversation ordered message fetch used for context
reconstruction. -/
structure ContextMessage where
  id : Nat
  role : String
  content : String
  created_at : Int
deriving DecidableEq, Repr

/-- JavaScript Array.prototype.findIndex, with none for -1. -/
def findIndex {α : Type} (p : α → Bool) : List α → Option Nat
  | [] => none
  | a :: l => if p a then some 0 else (findIndex p l).map (· + 1)

/-- The context window slice of the search handler: locate the matched
message, then slice from max(0, i-2) to min(n-1, i+2) inclusive. -/
def buildContext (contextMessages : List ContextMessage) (matchedId : Nat) : List ContextMessage :=
  match findIndex (fun msg => msg.id == matchedId) contextMessages with
  | none => []
  | some matchIndex =>
    let startIndex : Int := max 0 ((matchIndex : Int) - 2)
    let endIndex : Int := min ((contextMessages.length : Int) - 1) ((matchIndex : Int) + 2)
    (contextMessages.drop startIndex.toNat).take (endIndex + 1 - startIndex).toNat

/-- Ten-message conversation used to witness the window theorem. -/
def msgs10 : List ContextMessage :=
  (List.range 10).map (fun j => ⟨j, "user", "m", (j : Int)⟩)

/-- The conversation summary fields fetched per match. -/
structure ConversationMeta where
  conversation_id : String
  title : Option String
  created_at : Int
deriving DecidableEq, Repr

/-- One row returned by the ranking query, as consumed by the handler. -/
structure MessageMatch where
  id : Nat
  conversation_id : Nat
  role : String
  content : String
  created_at : Int
  similarity : ℚ
deriving DecidableEq, Repr

structure EnrichedMatch where
  matched : MessageMatch
  conversation : ConversationMeta
  context : List ContextMessage
deriving DecidableEq, Repr

/-- One iteration of the enrichment loop: fetch the parent conversation,
fetch the ordered message list, build the context window.  An error in
either fetch makes the loop continue to the next match, dropping this
one; no error is raised. -/
def enrichOne (fetchConv : Nat → Except String ConversationMeta)
    (fetchMsgs : Nat → Except String (List ContextMessage))
    (m : MessageMatch) : Option EnrichedMatch :=
  match fetchConv m.conversation_id with
  | .error _ => none
  | .ok conv =>
    match fetchMsgs m.conversation_id with
    | .error _ => none
    | .ok ctxMsgs => some ⟨m, conv, buildContext ctxMsgs m.id⟩

/-- The enrichment pass over all filtered matches (the for loop that
pushes onto enrichedMatches). -/
def enrichMatches (fetchConv : Nat → Except String ConversationMeta)
    (fetchMsgs : Nat → Except String (List ContextMessage))
    (ms : List MessageMatch) : List EnrichedMatch :=
  ms.filterMap (enrichOne fetchConv fetchMsgs)

def convMeta0 : ConversationMeta := ⟨"conv-1", some "T", 0⟩

def fetchConvOk : Nat → Except String ConversationMeta := fun _ => .ok convMeta0

def ctxMsgsW : List ContextMessage := [⟨99, "user", "x", 0⟩]

def fetchMsgsW : Nat → Except String (List ContextMessage) := fun _ => .ok ctxMsgsW

def mMatch : MessageMatch := ⟨1, 1, "user", "hi", 0, 1⟩

def fetchConvSel : Nat → Except String ConversationMeta :=
  fun c => if c = 1 then .error "boom" else .ok convMeta0

def mOther : MessageMatch := ⟨2, 2, "assistant", "yo", 1, 1⟩

/-- One message of an ingest request body. -/
structure InMsg where
  role : String
  content : String
  metadata : Option String
deriving DecidableEq, Repr

/-- The fields the ingestion handler reads from one embedding response:
data[0].embedding and usage.total_tokens. -/
structure EmbedResult where
  embedding : List ℚ
  total_tokens : Nat
deriving DecidableEq, Repr

/-- A row inserted into conversation_message by the ingestion handler. -/
structure StoredMsgRow where
  conversation_id : Nat
  role : String
  content : String
  token_count : Nat
  embedding : List ℚ
  metadata : Option String
deriving DecidableEq, Repr

/-- content.replace of every newline by a space before embedding. -/
def normalizeContent (s : String) : String :=
  String.mk (s.data.map (fun c => if c = '\n' then ' ' else c))

/-- The per-message loop of the ingestion handler.  State: the rows of
conversation_message already committed (db) and the running results
count.  Each step skips a message with empty content or role, asks the
embedding provider, inserts the row, and on the first error from either
collaborator returns that error immediately; rows committed by earlier
iterations stay in db, since no transaction wraps the loop. -/
def ingestMessages (embed : String → Except String EmbedResult)
    (insertErr : StoredMsgRow → Option String) (convId : Nat) :
    List InMsg → List StoredMsgRow → Nat → List StoredMsgRow × Except String Nat
  | [], db, count => (db, .ok count)
  | msg :: rest, db, count =>
    if msg.content == "" || msg.role == "" then
      ingestMessages embed insertErr convId rest db count
    else
      match embed (normalizeContent msg.content) with
      | .error e => (db, .error e)
      | .ok er =>
        let row : StoredMsgRow :=
          ⟨convId, msg.role, msg.content, er.total_tokens, er.embedding, msg.metadata⟩
        match insertErr row with
        | some e => (db, .error e)
        | none => ingestMessages embed insertErr convId rest (db ++ [row]) (count + 1)

def noInsertErr : StoredMsgRow → Option String := fun _ => none

/-- Embedding provider that fails exactly on the second message. -/
def embedC : String → Except String EmbedResult :=
  fun s =>
    if s = "second message" then .error "Failed to generate embedding"
    else .ok ⟨[1], 5⟩

def preW : List InMsg := [⟨"user", "first message", none⟩]

/-- Prefix with one skipped message (empty content) before a valid one,
exercising the skip branch of the loop. -/
def preW2 : List InMsg := [⟨"user", "", none⟩, ⟨"user", "first message", none⟩]

def mW : InMsg := ⟨"assistant", "second message", none⟩

def postW : List InMsg := [⟨"user", "third message", none⟩]

def inMsgs3 : List InMsg := preW ++ mW :: postW

/-- Error class raised by PostgreSQL when the ON CONFLICT target matches
no unique or exclusion constraint (sqlstate 42P10). -/
inductive PgError where
  | noUniqueOrExclusionConstraint
deriving DecidableEq, Repr

/-- The unique column sets the migration declares for the
conversation_history table: only the bigserial primary key id.  The
index idx_conversation_history_conversation_id is a plain non-unique
index, so conversation_id carries no unique constraint. -/
def conversationHistoryUniqueIndexes : List (List String) := [["id"]]

structure ConvUpsertInput where
  conversation_id : String
  title : Option String
  summary : Option String
deriving DecidableEq, Repr

/-- INSERT with ON CONFLICT (target) DO UPDATE against the
conversation_history table, as issued by the Supabase upsert call.  The
statement is rejected outright when the target column set matches no
declared unique index; otherwise it updates the row with the same
conversation_id (the only target the handler uses) or inserts a fresh
row. -/
def upsertOnConflict (uniqueIndexes : List (List String)) (target : List String)
    (rows : List ConvHistRow) (nextId : Nat) (now : Int) (inp : ConvUpsertInput) :
    Except PgError (List ConvHistRow) :=
  if uniqueIndexes.contains target then
    if rows.any (fun r => r.conversation_id == inp.conversation_id) then
      .ok (rows.map (fun r =>
        if r.conversation_id == inp.conversation_id then
          { r with title := inp.title, summary := inp.summary }
        else r))
    else
      .ok (rows ++ [⟨nextId, none, inp.conversation_id, now, inp.title, inp.summary⟩])
  else
    .error .noUniqueOrExclusionConstraint

/-- The conversation upsert of the ingestion handler: onConflict
conversation_id against the schema of the migration. -/
def ingestUpsertConversation (rows : List ConvHistRow) (nextId : Nat) (now : Int)
    (inp : ConvUpsertInput) : Except PgError (List ConvHistRow) :=
  upsertOnConflict conversationHistoryUniqueIndexes ["conversation_id"] rows nextId now inp

theorem mem_of_isMatchResult {table : List MsgRow} {dist : List ℚ → ℚ} {t : ℚ}
    {k : Nat} {fc : Option Nat} {res : List MsgRow} {row : MsgRow}
    (h : IsMatchResult table dist t k fc res) (hr : row ∈ res) :
    row ∈ table ∧ qualifies dist t fc row = true := by
  obtain ⟨s, hperm, _, htake⟩ := h
  have hs : row ∈ s := List.mem_of_mem_take (htake ▸ hr)
  have hf : row ∈ table.filter (qualifies dist t fc) := hperm.mem_iff.mp hs
  exact List.mem_filter.mp hf

theorem qualifies_strict {dist : List ℚ → ℚ} {t : ℚ} {fc : Option Nat} {row : MsgRow}
    (h : qualifies dist t fc row = true) :
    ∃ e, row.embedding = some e ∧ 1 - dist e > t := by
  unfold qualifies at h
  cases hmem : row.embedding with
  | none => rw [hmem] at h; exact absurd h (by simp)
  | some e =>
    rw [hmem] at h
    refine ⟨e, rfl, ?_⟩
    have := (Bool.and_eq_true _ _).mp h
    exact of_decide_eq_true this.1

/-- Claim C2: every row returned by the ranking has similarity strictly
greater than the threshold; in particular a row whose similarity equals
the threshold exactly is excluded from the result. -/
theorem rank_threshold_strict (table : List MsgRow) (dist : List ℚ → ℚ) (t : ℚ)
    (k : Nat) (fc : Option Nat) (res : List MsgRow)
    (h : IsMatchResult table dist t k fc res) :
    (∀ row ∈ res, ∃ e, row.embedding = some e ∧ 1 - dist e > t) ∧
    (∀ row : MsgRow, ∀ e : List ℚ, row.embedding = some e → 1 - dist e = t → row ∉ res) := by
  constructor
  · intro row hr
    exact qualifies_strict (mem_of_isMatchResult h hr).2
  · intro row e hemb heq hr
    obtain ⟨e2, hemb2, hgt⟩ := qualifies_strict (mem_of_isMatchResult h hr).2
    rw [hemb] at hemb2
    cases hemb2
    exact absurd heq (ne_of_gt hgt)

theorem qualifies_wRow : qualifies distW (7/10) none wRow = true := by
  simp only [qualifies, wRow, distW, decide_eq_true_eq]
  norm_num

theorem wTbl_isMatchResult : IsMatchResult wTbl distW (7/10) 5 none [wRow] := by
  refine ⟨[wRow], ?_, ?_, rfl⟩
  · have : wTbl.filter (qualifies distW (7/10) none) = [wRow] := by
      simp [wTbl, List.filter, qualifies_wRow]
    rw [this]
  · exact List.pairwise_singleton _ _

theorem rank_threshold_strict_witness :
    (∀ row ∈ [wRow], ∃ e, row.embedding = some e ∧ 1 - distW e > 7/10) ∧
    (∀ row : MsgRow, ∀ e : List ℚ, row.embedding = some e → 1 - distW e = 7/10 → row ∉ [wRow]) :=
  rank_threshold_strict wTbl distW (7/10) 5 none [wRow] wTbl_isMatchResult

/-- Claim C5: ranking returns at most match_count rows, and every
returned row is a stored row with a non-null embedding. -/
theorem rank_limit_and_nonnull (table : List MsgRow) (dist : List ℚ → ℚ) (t : ℚ)
    (k : Nat) (fc : Option Nat) (res : List MsgRow)
    (h : IsMatchResult table dist t k fc res) :
    res.length ≤ k ∧ ∀ row ∈ res, row ∈ table ∧ row.embedding ≠ none := by
  obtain ⟨s, hperm, hsort, htake⟩ := h
  constructor
  · rw [htake, List.length_take]
    exact min_le_left _ _
  · intro row hr
    obtain ⟨hmem, hq⟩ := mem_of_isMatchResult ⟨s, hperm, hsort, htake⟩ hr
    obtain ⟨e, hemb, _⟩ := qualifies_strict hq
    exact ⟨hmem, by rw [hemb]; exact Option.some_ne_none e⟩

theorem rank_limit_and_nonnull_witness :
    [wRow].length ≤ 5 ∧ ∀ row ∈ [wRow], row ∈ wTbl ∧ row.embedding ≠ none :=
  rank_limit_and_nonnull wTbl distW (7/10) 5 none [wRow] wTbl_isMatchResult

theorem qualifies_rowLate : qualifies distTie (7/10) none rowLate = true := by
  simp only [qualifies, rowLate, distTie, decide_eq_true_eq]
  norm_num

theorem qualifies_rowEarly : qualifies distTie (7/10) none rowEarly = true := by
  simp only [qualifies, rowEarly, distTie, decide_eq_true_eq]
  norm_num

/-- Claim C3 counterexample: the sequence later-created-first is a
legitimate output of the ranking (equal similarities, so the
similarity-descending order holds), yet it violates the claimed
earliest-creation tie rule.  The SQL ORDER BY names similarity only, so
no tie order is imposed. -/
theorem rank_tiebreak_counterexample :
    IsMatchResult tieTbl distTie (7/10) 5 none [rowLate, rowEarly] ∧
    ¬ tieBreakAsc distTie [rowLate, rowEarly] := by
  constructor
  · refine ⟨[rowLate, rowEarly], ?_, ?_, rfl⟩
    · have : tieTbl.filter (qualifies distTie (7/10) none) = [rowLate, rowEarly] := by
        simp [tieTbl, List.filter, qualifies_rowLate, qualifies_rowEarly]
      rw [this]
    · refine List.pairwise_cons.mpr ⟨?_, List.pairwise_singleton _ _⟩
      intro b hb
      rw [List.mem_singleton.mp hb]
      simp [msgSimilarity, rowLate, rowEarly]
  · intro h
    have h1 := (List.pairwise_cons.mp h).1 rowEarly (List.mem_singleton.mpr rfl)
    have hsim : msgSimilarity distTie rowLate = msgSimilarity distTie rowEarly := by
      simp [msgSimilarity, rowLate, rowEarly]
    have := h1 hsim
    simp [rowLate, rowEarly] at this

/-- Claim C3 amended: similarity is non-increasing along every ranking
result; the order among rows of equal similarity is not constrained by
the code. -/
theorem rank_similarity_nonincreasing (table : List MsgRow) (dist : List ℚ → ℚ)
    (t : ℚ) (k : Nat) (fc : Option Nat) (res : List MsgRow)
    (h : IsMatchResult table dist t k fc res) :
    res.Pairwise (fun a b => msgSimilarity dist b ≤ msgSimilarity dist a) := by
  obtain ⟨s, _, hsort, htake⟩ := h
  rw [htake]
  exact hsort.sublist (List.take_sublist k s)

theorem rank_similarity_nonincreasing_witness :
    List.Pairwise (fun a b => msgSimilarity distW b ≤ msgSimilarity distW a) [wRow] :=
  rank_similarity_nonincreasing wTbl distW (7/10) 5 none [wRow] wTbl_isMatchResult

theorem qualifies_msgA : qualifies distU (7/10) none msgA = true := by
  simp only [qualifies, msgA, distU, decide_eq_true_eq]
  norm_num

theorem qualifies_msgB : qualifies distU (7/10) none msgB = true := by
  simp only [qualifies, msgB, distU, decide_eq_true_eq]
  norm_num

/-- Claim C10: the user filter runs after the ranking has already
truncated to match_count, so a request with a userId can return fewer
matches than match_count even though further qualifying messages exist
in the user conversations.  Concretely: limit 1, the single ranked row
belongs to another user, and a qualifying row of user u is left out. -/
theorem search_user_filter_after_limit :
    ∃ res, IsUserSearchResult uTbl cTbl distU (7/10) 1 "u" res ∧ res.length < 1 ∧
      ∃ msg ∈ uTbl, qualifies distU (7/10) none msg = true ∧
        msg.conversation_id ∈ userConversationIds cTbl "u" ∧ msg ∉ res := by
  have hfilter : uTbl.filter (qualifies distU (7/10) none) = [msgA, msgB] := by
    simp [uTbl, List.filter, qualifies_msgA, qualifies_msgB]
  have hmr : IsMatchResult uTbl distU (7/10) 1 none [msgA] := by
    refine ⟨[msgA, msgB], ?_, ?_, rfl⟩
    · rw [hfilter]
    · refine List.pairwise_cons.mpr ⟨?_, List.pairwise_singleton _ _⟩
      intro b hb
      rw [List.mem_singleton.mp hb]
      simp only [msgSimilarity, msgA, msgB, distU]
      norm_num
  have hids : userConversationIds cTbl "u" = [1] := by decide
  refine ⟨[], ⟨[msgA], hmr, ?_⟩, by simp, msgB, ?_, qualifies_msgB, ?_, ?_⟩
  · simp only [userFilter, hids, List.filter]
    decide
  · simp [uTbl]
  · rw [hids]; simp [msgB]
  · exact List.not_mem_nil msgB

/-- Claim C4 counterexample: a request with matchThreshold 3/2 (outside
the interval [0,1]) and matchCount -1 (not positive) resolves
successfully and proceeds to the search; no InvalidParameter error
exists in the code. -/
theorem search_no_range_validation_counterexample :
    ((3:ℚ)/2 > 1 ∧ (-1:Int) ≤ 0) ∧
    resolveSearchRequest req0 = .ok ⟨"q", none, none, -1, 3/2, false⟩ := by
  refine ⟨⟨by norm_num, by norm_num⟩, rfl⟩

/-- Claim C4 amended: resolution checks only that query is present and
non-empty; any matchThreshold and matchCount values (after defaulting)
are accepted unchanged, so out-of-range values reach the search. -/
theorem resolve_search_checks_only_query (r : SearchRequest) (q : String)
    (hq : r.query = some q) (hne : q ≠ "") :
    resolveSearchRequest r = .ok ⟨q, r.userId, r.conversationId,
      r.matchCount.getD 5, r.matchThreshold.getD (7/10), r.includeContext.getD false⟩ := by
  unfold resolveSearchRequest
  rw [hq]
  simp [hne]

theorem resolve_search_checks_only_query_witness :
    resolveSearchRequest req0 = .ok ⟨"q", req0.userId, req0.conversationId,
      req0.matchCount.getD 5, req0.matchThreshold.getD (7/10), req0.includeContext.getD false⟩ :=
  resolve_search_checks_only_query req0 "q" rfl (by decide)

theorem findIndex_some_lt {α : Type} (p : α → Bool) :
    ∀ (l : List α) (i : Nat), findIndex p l = some i → i < l.length := by
  intro l
  induction l with
  | nil => intro i h; exact absurd h (by simp [findIndex])
  | cons a l ih =>
    intro i h
    by_cases hp : p a
    · rw [findIndex, if_pos hp] at h
      cases h
      exact Nat.succ_pos _
    · rw [findIndex, if_neg hp] at h
      obtain ⟨j, hj, hji⟩ := Option.map_eq_some'.mp h
      subst hji
      exact Nat.succ_lt_succ (ih j hj)

theorem findIndex_eq_none {α : Type} (p : α → Bool) :
    ∀ l : List α, (∀ a ∈ l, p a = false) → findIndex p l = none := by
  intro l
  induction l with
  | nil => intro _; rfl
  | cons a l ih =>
    intro h
    rw [findIndex, if_neg (by simp [h a (List.mem_cons_self a l)])]
    rw [ih (fun b hb => h b (List.mem_cons_of_mem a hb))]
    rfl

/-- Claim C6: when the matched message sits at position i of the
ascending sequence, the context window is exactly the inclusive position
range from i - 2 (truncated at 0) to min (n-1) (i+2), in order, and the
matched message itself belongs to it. -/
theorem buildContext_window (msgs : List ContextMessage) (mid i : Nat)
    (h : findIndex (fun m => m.id == mid) msgs = some i) :
    buildContext msgs mid =
      (msgs.drop (i - 2)).take (min (msgs.length - 1) (i + 2) + 1 - (i - 2)) ∧
    ∀ hi : i < msgs.length, msgs.get ⟨i, hi⟩ ∈ buildContext msgs mid := by
  have hlt : i < msgs.length := findIndex_some_lt _ _ _ h
  have heq : buildContext msgs mid =
      (msgs.drop (i - 2)).take (min (msgs.length - 1) (i + 2) + 1 - (i - 2)) := by
    unfold buildContext
    rw [h]
    have hs : (max 0 ((i : Int) - 2)).toNat = i - 2 := by omega
    have he : (min ((msgs.length : Int) - 1) ((i : Int) + 2) + 1 - max 0 ((i : Int) - 2)).toNat
        = min (msgs.length - 1) (i + 2) + 1 - (i - 2) := by omega
    dsimp only
    rw [hs, he]
  refine ⟨heq, ?_⟩
  intro hi
  rw [heq]
  have hdl : (msgs.drop (i - 2)).length = msgs.length - (i - 2) := List.length_drop _ _
  have h1 : i - (i - 2) < (msgs.drop (i - 2)).length := by omega
  have h2 : i - (i - 2) < min (msgs.length - 1) (i + 2) + 1 - (i - 2) := by omega
  have h3 : i - (i - 2) < ((msgs.drop (i - 2)).take
      (min (msgs.length - 1) (i + 2) + 1 - (i - 2))).length := by
    rw [List.length_take]
    omega
  have hv : ((msgs.drop (i - 2)).take
      (min (msgs.length - 1) (i + 2) + 1 - (i - 2))).get ⟨i - (i - 2), h3⟩ = msgs.get ⟨i, hi⟩ := by
    simp only [List.get_eq_getElem]
    rw [List.getElem_take, List.getElem_drop]
    congr 1
    omega
  rw [← hv]
  exact List.get_mem _ _ h3

theorem buildContext_window_witness :
    buildContext msgs10 5 =
      (msgs10.drop (5 - 2)).take (min (msgs10.length - 1) (5 + 2) + 1 - (5 - 2)) ∧
    ∀ hi : 5 < msgs10.length, msgs10.get ⟨5, hi⟩ ∈ buildContext msgs10 5 :=
  buildContext_window msgs10 5 5 (by decide)

/-- Claim C7: when no message of the fetched conversation carries the
matched id, the context window is empty and the match is still returned,
with an empty context, so the request succeeds. -/
theorem enrich_unknown_match_id (fetchConv : Nat → Except String ConversationMeta)
    (fetchMsgs : Nat → Except String (List ContextMessage))
    (m : MessageMatch) (conv : ConversationMeta) (ctxMsgs : List ContextMessage)
    (hc : fetchConv m.conversation_id = .ok conv)
    (hm : fetchMsgs m.conversation_id = .ok ctxMsgs)
    (hid : ∀ c ∈ ctxMsgs, c.id ≠ m.id) :
    buildContext ctxMsgs m.id = [] ∧
    enrichMatches fetchConv fetchMsgs [m] = [⟨m, conv, []⟩] := by
  have hb : buildContext ctxMsgs m.id = [] := by
    unfold buildContext
    rw [findIndex_eq_none _ _ (fun c hcm => by simp [hid c hcm])]
  refine ⟨hb, ?_⟩
  have hone : enrichOne fetchConv fetchMsgs m = some ⟨m, conv, []⟩ := by
    simp only [enrichOne, hc, hm, hb]
  simp [enrichMatches, hone]

theorem enrich_unknown_match_id_witness :
    buildContext ctxMsgsW mMatch.id = [] ∧
    enrichMatches fetchConvOk fetchMsgsW [mMatch] = [⟨mMatch, convMeta0, []⟩] :=
  enrich_unknown_match_id fetchConvOk fetchMsgsW mMatch convMeta0 ctxMsgsW rfl rfl
    (by decide)

/-- Claim C9: a match whose parent-conversation fetch fails is dropped
from the enrichment output, and the matches before and after it are
still enriched and returned in order. -/
theorem enrich_drops_failed_match (fetchConv : Nat → Except String ConversationMeta)
    (fetchMsgs : Nat → Except String (List ContextMessage))
    (pre post : List MessageMatch) (m : MessageMatch) (e : String)
    (h : fetchConv m.conversation_id = .error e) :
    enrichMatches fetchConv fetchMsgs (pre ++ m :: post) =
      enrichMatches fetchConv fetchMsgs pre ++ enrichMatches fetchConv fetchMsgs post := by
  have hnone : enrichOne fetchConv fetchMsgs m = none := by
    simp only [enrichOne, h]
  simp [enrichMatches, List.filterMap_append, List.filterMap_cons, hnone]

theorem enrich_drops_failed_match_witness :
    enrichMatches fetchConvSel fetchMsgsW ([mOther] ++ mMatch :: []) =
      enrichMatches fetchConvSel fetchMsgsW [mOther] ++
        enrichMatches fetchConvSel fetchMsgsW [] :=
  enrich_drops_failed_match fetchConvSel fetchMsgsW [mOther] [] mMatch "boom" rfl

/-- Claim C1 counterexample: three messages, the second fails the
embedding call; the call aborts with the error, but one message (the
first) is persisted, not zero. -/
theorem ingest_partial_commit_counterexample :
    (ingestMessages embedC noInsertErr 7 inMsgs3 [] 0).2 = .error "Failed to generate embedding" ∧
    (ingestMessages embedC noInsertErr 7 inMsgs3 [] 0).1.length = 1 ∧
    (ingestMessages embedC noInsertErr 7 inMsgs3 [] 0).1.length ≠ 0 := by
  refine ⟨rfl, rfl, ?_⟩
  have h : (ingestMessages embedC noInsertErr 7 inMsgs3 [] 0).1.length = 1 := rfl
  omega

/-- Claim C1 amended: when the first failure of the call — either the
embedding call or the storage insert — happens at some message, the loop
aborts there and surfaces that error, no later message is persisted, and
the rows committed for the non-skipped messages preceding the failure
remain persisted (one row each); there is no rollback. -/
theorem ingest_abort_keeps_prior_rows (embed : String → Except String EmbedResult)
    (insertErr : StoredMsgRow → Option String) (convId : Nat)
    (pre post : List InMsg) (m : InMsg) (db : List StoredMsgRow)
    (count : Nat) (e : String)
    (hpre : ∀ p ∈ pre, (p.content == "" || p.role == "") = true ∨
        ∃ er, embed (normalizeContent p.content) = .ok er ∧
          insertErr ⟨convId, p.role, p.content, er.total_tokens, er.embedding, p.metadata⟩ = none)
    (hm1 : (m.content == "" || m.role == "") = false)
    (hm2 : embed (normalizeContent m.content) = .error e ∨
        ∃ er, embed (normalizeContent m.content) = .ok er ∧
          insertErr ⟨convId, m.role, m.content, er.total_tokens, er.embedding, m.metadata⟩ = some e) :
    ∃ db2, ingestMessages embed insertErr convId (pre ++ m :: post) db count =
        (db2, .error e) ∧
      db2.length = db.length +
        (pre.filter (fun p => !(p.content == "" || p.role == ""))).length := by
  induction pre generalizing db count with
  | nil =>
    rcases hm2 with he | ⟨er, her, hins⟩
    · refine ⟨db, ?_, by simp⟩
      simp only [List.nil_append, ingestMessages, hm1, he]
      simp
    · refine ⟨db, ?_, by simp⟩
      simp only [List.nil_append, ingestMessages, hm1, her, hins]
      simp
  | cons p rest ih =>
    by_cases hsk : (p.content == "" || p.role == "") = true
    · obtain ⟨db2, heq, hlen⟩ :=
        ih db count (fun q hq => hpre q (List.mem_cons_of_mem p hq))
      refine ⟨db2, ?_, ?_⟩
      · simp only [List.cons_append, ingestMessages, hsk]
        simpa using heq
      · rw [hlen, List.filter_cons_of_neg (by simp [hsk])]
    · have hsk2 : (p.content == "" || p.role == "") = false := by
        revert hsk
        cases p.content == "" || p.role == "" <;> simp
      rcases hpre p (List.mem_cons_self p rest) with hcontra | ⟨er, her, hins⟩
      · exact absurd hcontra hsk
      · obtain ⟨db2, heq, hlen⟩ :=
          ih (db ++ [⟨convId, p.role, p.content, er.total_tokens, er.embedding, p.metadata⟩])
            (count + 1)
            (fun q hq => hpre q (List.mem_cons_of_mem p hq))
        refine ⟨db2, ?_, ?_⟩
        · simp only [List.cons_append, ingestMessages, hsk2, her, hins]
          simpa using heq
        · rw [hlen, List.filter_cons_of_pos (by simp [hsk2])]
          simp
          omega

theorem ingest_abort_keeps_prior_rows_witness :
    ∃ db2, ingestMessages embedC noInsertErr 7 (preW2 ++ mW :: postW) [] 0 =
        (db2, .error "Failed to generate embedding") ∧
      db2.length = List.length ([] : List StoredMsgRow) +
        (preW2.filter (fun p => !(p.content == "" || p.role == ""))).length :=
  ingest_abort_keeps_prior_rows embedC noInsertErr 7 preW2 postW mW [] 0
    "Failed to generate embedding"
    (by
      intro p hp
      rcases List.mem_cons.mp hp with rfl | hp2
      · exact Or.inl (by decide)
      · rcases List.mem_cons.mp hp2 with rfl | hp3
        · exact Or.inr ⟨⟨[1], 5⟩, rfl, rfl⟩
        · exact absurd hp3 (List.not_mem_nil p))
    (by decide)
    (Or.inl rfl)

/-- Claim C8: the upsert keyed by conversation_id is rejected for every
state of the table and every input, because the migration declares no
unique constraint on conversation_history.conversation_id; the
idempotent upsert the specification describes cannot execute at all. -/
theorem ingest_upsert_rejected_no_unique_constraint (rows : List ConvHistRow)
    (nextId : Nat) (now : Int) (inp : ConvUpsertInput) :
    ingestUpsertConversation rows nextId now inp = .error .noUniqueOrExclusionConstraint := by
  have h : conversationHistoryUniqueIndexes.contains ["conversation_id"] = false := by decide
  simp [ingestUpsertConversation, upsertOnConflict, h]
  intro hmem
  simp [conversationHistoryUniqueIndexes] at hmem

end ConvEmbed
